import Mathlib

/-!
# Verification of the layout-module scaffolding of `blyxyas/typst`

A shallow embedding of `src/layout/mod.rs` in Lean 4. Rust `f64` values are
modelled as exact rationals (`ℚ`): the module only adds, subtracts, compares
and takes `min`/`max` of coordinates, so the field structure of the reals is
all that matters and `ℚ` keeps every statement decidable.

Rust methods taking `&mut self` are embedded as functions returning the
updated value; methods taking `&self` return only their result (a wrapper
`Area.placeCall` makes the receiver-is-unchanged reading of a `&self` call
explicit where a frame property is stated). Rust panics (`assert!`,
`assert_eq!`) are embedded in `Except String`: `.error` is a panic,
`.ok` a normal return.

Types from sibling crates/modules that are not part of the given source
(`crate::geom`, `crate::syntax::tree`, the `shaping` and `stack` submodules)
are modelled from the specification where needed; each such definition
carries a doc comment starting with `Modelled from the spec:`.
-/

/-- `kurbo::Point` (`crate::geom::Point`): a 2-d point with `f64` coordinates. -/
structure Point where
  x : ℚ
  y : ℚ
deriving DecidableEq, Repr

/-- `kurbo::Vec2`: a 2-d vector, the result of `Point::to_vec2`. -/
structure Vec2 where
  x : ℚ
  y : ℚ
deriving DecidableEq, Repr

/-- `Point::to_vec2`: reinterpret a point as a translation vector. -/
def Point.to_vec2 (p : Point) : Vec2 :=
  ⟨p.x, p.y⟩

/-- `Point + Vec2` (kurbo's `impl Add<Vec2> for Point`): componentwise translation. -/
instance : HAdd Point Vec2 Point :=
  ⟨fun p v => ⟨p.x + v.x, p.y + v.y⟩⟩

/-- `Point::new`. -/
def Point.new (x y : ℚ) : Point :=
  ⟨x, y⟩

/-- `crate::geom::Size`: a width/height pair. -/
structure Size where
  width : ℚ
  height : ℚ
deriving DecidableEq, Repr

/-- `crate::geom::shape::Rect`: an axis-aligned rectangle given by its two corners. -/
structure Rect where
  x0 : ℚ
  y0 : ℚ
  x1 : ℚ
  y1 : ℚ
deriving DecidableEq, Repr

/-- `Rect::width`. -/
def Rect.width (r : Rect) : ℚ :=
  r.x1 - r.x0

/-- `Rect::height`. -/
def Rect.height (r : Rect) : ℚ :=
  r.y1 - r.y0

/-- `crate::geom::Dim`: a size with baseline split, total height is `height + depth`. -/
structure Dim where
  width : ℚ
  height : ℚ
  depth : ℚ
deriving DecidableEq, Repr

/-- `Dim::to_size`: the spec gives `to_size() = \x7b width, height + depth \x7d`. -/
def Dim.to_size (d : Dim) : Size :=
  ⟨d.width, d.height + d.depth⟩

/-- Page margins, the argument of `Rect::inset` (`page.margins()` in the driver). -/
structure Margins where
  left : ℚ
  top : ℚ
  right : ℚ
  bottom : ℚ
deriving DecidableEq, Repr

/-- Modelled from the spec: `Size::to_rect` lives in `crate::geom`, outside the
given source. The Area invariant says `usable` "lies inside `[0,0]`–size", so the
rectangle of a size spans from the origin to `(width, height)`. -/
def Size.to_rect (s : Size) : Rect :=
  ⟨0, 0, s.width, s.height⟩

/-- Modelled from the spec: `Rect::inset` lives in `crate::geom`, outside the
given source. Spec: "`inset(margins)` (shrink all four sides; clamps to
degenerate but non-negative)". -/
def Rect.inset (r : Rect) (m : Margins) : Rect :=
  let x0 := r.x0 + m.left
  let y0 := r.y0 + m.top
  ⟨x0, y0, max (r.x1 - m.right) x0, max (r.y1 - m.bottom) y0⟩

/-- `Dir` from `layout::primitive`: one of the four cardinal directions. -/
inductive Dir where
  | ltr
  | rtl
  | ttb
  | btt
deriving DecidableEq, Repr

/-- `SpecAxis` from `layout::primitive`. -/
inductive SpecAxis where
  | horizontal
  | vertical
deriving DecidableEq, Repr

/-- `GenAlign` from `layout::primitive`: `Start`, `Center` or `End`. -/
inductive GenAlign where
  | start
  | center
  | «end»
deriving DecidableEq, Repr

/-- `Side` from `layout::primitive`, as matched in `Area::shrink_by`/`shrink_to`. -/
inductive Side where
  | left
  | right
  | top
  | bottom
deriving DecidableEq, Repr

/-- `Overflow`: the policy of an `Areas` supply. -/
inductive Overflow where
  | stop
  | spill
deriving DecidableEq, Repr

/-- `crate::geom::shape::ShapeGroup`: reserved for non-rectangular flow. The
source never inspects one (it only asserts `shape.is_none()`), so a placeholder
constructor suffices. -/
inductive ShapeGroup where
  | mk
deriving DecidableEq, Repr

/-- Modelled from the spec: `LayoutElement` lives in the absent `elements`
submodule. Spec: "an atomic drawable: a shaped text run (glyph ids + positions +
font reference), a filled shape, or a raster image reference. Flat; never
recursive." The source treats elements opaquely, so constructor payloads are
reduced to a tag. -/
inductive LayoutElement where
  | text : String → LayoutElement
  | shapeFill : LayoutElement
  | image : LayoutElement
deriving DecidableEq, Repr

/-- `Layout`: dimensions plus positioned atomic elements. -/
structure Layout where
  dim : Dim
  elements : List (Point × LayoutElement)
deriving DecidableEq, Repr

/-- `Layout::new`. -/
def Layout.new (dim : Dim) : Layout :=
  { dim := dim, elements := [] }

/-- `Layout::size`. -/
def Layout.size (l : Layout) : Size :=
  l.dim.to_size

/-- `Layout::push`: `self.elements.push((pos, element))`. -/
def Layout.push (l : Layout) (pos : Point) (element : LayoutElement) : Layout :=
  { l with elements := l.elements ++ [(pos, element)] }

/-- `Layout::push_layout`: `for (delta, element) in layout.elements
\x7b self.push(pos + delta.to_vec2(), element); \x7d`. -/
def Layout.push_layout (l : Layout) (pos : Point) (layout : Layout) : Layout :=
  layout.elements.foldl (fun acc de => acc.push (pos + de.1.to_vec2) de.2) l

/-- `LayoutItem`: a request to the stack layouter. -/
inductive LayoutItem where
  | space
  | parbreak
  | layout : GenAlign → Layout → LayoutItem
  | spacing : SpecAxis → ℚ → LayoutItem
deriving DecidableEq, Repr

/-- `Area`: a single placement region. -/
structure Area where
  size : Size
  usable : Rect
  shape : Option ShapeGroup
deriving DecidableEq, Repr

/-- The `EPS` constant of `Area::place`: `1e-4`, exact as a rational. -/
def EPS : ℚ :=
  1 / 10000

/-- `Area::place`: where a box of dimension `dim` goes against `side` of
`usable`, or `none` if it does not fit. The two leading assertions
(`assert_eq!(side, Side::Top)` and `assert!(self.shape.is_none())`) are
embedded as `Except.error`. -/
def Area.place (a : Area) (dim : Dim) (side : Side) : Except String (Option Point) :=
  if side ≠ Side.top then
    Except.error "assertion failed: side == Top"
  else if a.shape.isSome then
    Except.error "assertion failed: shape is none"
  else if a.usable.width + EPS > dim.width ∧ a.usable.height + EPS > dim.height + dim.depth then
    Except.ok (some (Point.new a.usable.x0 (a.usable.y0 + dim.height)))
  else
    Except.ok none

/-- A call `area.place(dim, side)` on a receiver: `place` takes `&self`, so the
call returns its result together with the receiver, which the borrow leaves
unchanged. -/
def Area.placeCall (a : Area) (dim : Dim) (side : Side) :
    Except String (Option Point) × Area :=
  (a.place dim side, a)

/-- `Area::shrink_by`: move the chosen edge inward by `by`, clamped at the
opposite edge. -/
def Area.shrink_by (a : Area) (amt : ℚ) (side : Side) : Area :=
  match side with
  | Side.left => { a with usable := { a.usable with x0 := min (a.usable.x0 + amt) a.usable.x1 } }
  | Side.right => { a with usable := { a.usable with x1 := max (a.usable.x1 - amt) a.usable.x0 } }
  | Side.top => { a with usable := { a.usable with y0 := min (a.usable.y0 + amt) a.usable.y1 } }
  | Side.bottom => { a with usable := { a.usable with y1 := max (a.usable.y1 - amt) a.usable.y0 } }

/-- `Area::shrink_to`: set the chosen edge to `to`, clamped at the opposite edge. -/
def Area.shrink_to (a : Area) (tval : ℚ) (side : Side) : Area :=
  match side with
  | Side.left => { a with usable := { a.usable with x0 := min tval a.usable.x1 } }
  | Side.right => { a with usable := { a.usable with x1 := max tval a.usable.x0 } }
  | Side.top => { a with usable := { a.usable with y0 := min tval a.usable.y1 } }
  | Side.bottom => { a with usable := { a.usable with y1 := max tval a.usable.y0 } }

/-- `Areas`: an ordered supply of areas plus an overflow policy. -/
structure Areas where
  vec : List Area
  overflow : Overflow
deriving DecidableEq, Repr

/-- `Areas::new`. -/
def Areas.new (vec : List Area) (overflow : Overflow) : Areas :=
  { vec := vec, overflow := overflow }

/-- `Areas::next` (`&mut self`): returns the drawn area (if any) together with
the updated supply. Empty supply gives `none`; more than one area, or policy
`Stop`, removes and returns the front (`self.vec.remove(0)`); a `Spill`
singleton is cloned and the supply left unchanged. -/
def Areas.next (a : Areas) : Option Area × Areas :=
  match a.vec with
  | [] => (none, a)
  | x :: rest =>
    if rest.length + 1 > 1 ∨ a.overflow = Overflow.stop then
      (some x, { a with vec := rest })
    else
      (some x, a)

/-- The result stream of `n` successive `Areas::next` calls, with the final
supply state. -/
def Areas.run (a : Areas) : Nat → List (Option Area) × Areas
  | 0 => ([], a)
  | Nat.succ n =>
    let step := a.next
    let rest := step.2.run n
    (step.1 :: rest.1, rest.2)

/-- Modelled from the spec: `Feedback` (`crate::Feedback`) is not under src/.
Spec: "the pipeline accumulates `Feedback` entries (diagnostic kind + optional
source span)"; a diagnostic message tag suffices here. -/
inductive Feedback where
  | diag : String → Feedback
deriving DecidableEq, Repr

/-- `crate::Pass`: an output value together with accumulated feedback. -/
structure Pass (α : Type) where
  output : α
  feedback : List Feedback
deriving DecidableEq, Repr

/-- `Pass::ok`: a pass carrying no feedback. -/
def Pass.ok {α : Type} (a : α) : Pass α :=
  { output := a, feedback := [] }

/-- Modelled from the spec: `SyntaxNode` (`crate::syntax::tree`) is not under
src/. Spec: "a tree of `SyntaxNode` with variants at least `Text(String)` and
ignored others"; the driver section of the spec further names space nodes,
paragraph breaks and unknown node kinds, so those are the "others" here. -/
inductive SyntaxNode where
  | text : String → SyntaxNode
  | space : SyntaxNode
  | parbreak : SyntaxNode
  | unknown : SyntaxNode
deriving DecidableEq, Repr

/-- Modelled from the spec: `TextStyle` (`crate::style`) is not under src/.
Spec configuration: font family list and size in points. -/
structure TextStyle where
  family : List String
  size : ℚ
deriving DecidableEq, Repr

/-- Modelled from the spec: the page part of `LayoutStyle`, with
`page.margins()` as the margins it resolves to. -/
structure PageStyle where
  size : Size
  marginsVal : Margins
deriving DecidableEq, Repr

/-- `page.margins()` as called by the driver. -/
def PageStyle.margins (p : PageStyle) : Margins :=
  p.marginsVal

/-- Modelled from the spec: `LayoutStyle` (`crate::style`) is not under src/:
a page style plus a text style. -/
structure LayoutStyle where
  page : PageStyle
  text : TextStyle
deriving DecidableEq, Repr

/-- `crate::compute::Scope` is opaque external state; a placeholder. -/
inductive Scope where
  | mk
deriving DecidableEq, Repr

/-- `State`: the execution state threaded into the driver. -/
structure State where
  scope : Scope
  style : LayoutStyle
deriving DecidableEq, Repr

/-- `StackOptions` of the absent `stack` submodule, as constructed by the
driver: `StackOptions \x7b dir: Dir::TTB \x7d`. -/
structure StackOptions where
  dir : Dir
deriving DecidableEq, Repr

/-- The interface of the absent `stack::StackLayouter` submodule, abstracted:
a state type with the three operations the driver uses (`new`, `layout_item`,
`finish`). The driver is verified for every such machine. -/
structure StackMachine (σ : Type) where
  new : Areas → StackOptions → σ
  layoutItem : σ → LayoutItem → σ
  finish : σ → List Layout

/-- The interface of the absent `shaping::shape` function, abstracted: given
the text, the text style, the direction and the font loader (of abstract type
`Λ`, mutated through `&mut`), produce a layout and the updated loader. -/
def ShapeFn (Λ : Type) : Type :=
  String → TextStyle → Dir → Λ → Layout × Λ

/-- The initial `Area` the driver builds (lines 43-49 of `layout/mod.rs`):
page size, usable rectangle the page rectangle inset by the margins, no shape. -/
def layoutArea (state : State) : Area :=
  { size := state.style.page.size,
    usable := (state.style.page.size.to_rect).inset state.style.page.margins,
    shape := none }

/-- The driver loop over the syntax tree (lines 54-69 of `layout/mod.rs`),
threading the font loader: a `Text` node is shaped with the state's text style
and direction `LTR` and becomes `LayoutItem::Layout(GenAlign::Start, ...)`;
every other node hits the `_ => continue` arm and contributes nothing. -/
def layoutItems {Λ : Type} (sf : ShapeFn Λ) (style : TextStyle) :
    List SyntaxNode → Λ → List LayoutItem × Λ
  | [], loader => ([], loader)
  | SyntaxNode.text t :: rest, loader =>
    let shaped := sf t style Dir.ltr loader
    let tail := layoutItems sf style rest shaped.2
    (LayoutItem.layout GenAlign.start shaped.1 :: tail.1, tail.2)
  | _ :: rest, loader => layoutItems sf style rest loader

/-- The driver `layout` (lines 36-72 of `layout/mod.rs`): build the initial
area, wrap it in `Areas::new(vec![area], Overflow::Spill)`, start a stack
layouter with `StackOptions \x7b dir: Dir::TTB \x7d`, feed it the items of the
tree in document order, and return `Pass::ok(stack.finish())`. -/
def layout {Λ σ : Type} (M : StackMachine σ) (sf : ShapeFn Λ)
    (tree : List SyntaxNode) (loader : Λ) (state : State) : Pass (List Layout) :=
  let area := layoutArea state
  let areas := Areas.new [area] Overflow.spill
  let items := layoutItems sf state.style.text tree loader
  let stack := items.1.foldl M.layoutItem (M.new areas { dir := Dir.ttb })
  Pass.ok (M.finish stack)

/-- Core fact about `Area::place` at `Side::Top` on a shapeless area: both
assertions pass and the result is governed by the strict fit test of the
source (`usable.width() + EPS > dim.width`, `usable.height() + EPS >
dim.height + dim.depth`). -/
theorem Area.place_top_of_none (a : Area) (dim : Dim) (h : a.shape = none) :
    a.place dim Side.top =
      Except.ok
        (if a.usable.width + EPS > dim.width ∧
            a.usable.height + EPS > dim.height + dim.depth
          then some (Point.new a.usable.x0 (a.usable.y0 + dim.height))
          else none) := by
  unfold Area.place
  rw [if_neg (by simp), if_neg (by simp [h])]
  exact (apply_ite Except.ok _ _ _).symm

/-- One `Areas::next` step under `Spill` on a non-empty supply: the result is
`some`, the policy stays `Spill` and the supply stays non-empty. -/
theorem Areas.spill_next_step (v : List Area) (hne : v ≠ []) :
    (Areas.mk v Overflow.spill).next.1.isSome = true ∧
    (Areas.mk v Overflow.spill).next.2.overflow = Overflow.spill ∧
    (Areas.mk v Overflow.spill).next.2.vec ≠ [] := by
  match v, hne with
  | x :: rest, _ =>
    cases rest with
    | nil => simp [Areas.next]
    | cons y t => simp [Areas.next]

/-- Every entry of the result stream of a `Spill` supply that starts non-empty
is `some`. -/
theorem Areas.spill_run_isSome (n : Nat) :
    ∀ (a : Areas), a.overflow = Overflow.spill → a.vec ≠ [] →
      ∀ r ∈ (a.run n).1, r.isSome = true := by
  induction n with
  | zero =>
    intro a _ _ r hr
    simp [Areas.run] at hr
  | succ n ih =>
    intro a hov hne r hr
    obtain ⟨v, ov⟩ := a
    cases hov
    have hstep := Areas.spill_next_step v hne
    simp only [Areas.run, List.mem_cons] at hr
    rcases hr with rfl | hr
    · exact hstep.1
    · exact ih _ hstep.2.1 hstep.2.2 r hr

/-- Folding `push` over a list of elements appends exactly the translated
elements, in order. -/
theorem Layout.foldl_push_elements (es : List (Point × LayoutElement)) (p : Point) :
    ∀ (l : Layout),
      (es.foldl (fun acc de => acc.push (p + de.1.to_vec2) de.2) l).elements
        = l.elements ++ es.map (fun de => (p + de.1.to_vec2, de.2)) := by
  induction es with
  | nil => intro l; simp
  | cons e t ih =>
    intro l
    simp only [List.foldl_cons, List.map_cons]
    rw [ih]
    simp [Layout.push]

/-- Folding `push` over a list of elements never touches the dimension. -/
theorem Layout.foldl_push_dim (es : List (Point × LayoutElement)) (p : Point) :
    ∀ (l : Layout),
      (es.foldl (fun acc de => acc.push (p + de.1.to_vec2) de.2) l).dim = l.dim := by
  induction es with
  | nil => intro l; rfl
  | cons e t ih => intro l; rw [List.foldl_cons, ih]; rfl

/-- A concrete area used to instantiate universally quantified theorems. -/
def sampleArea : Area :=
  ⟨⟨100, 100⟩, ⟨10, 10, 90, 90⟩, none⟩

/-- A concrete dimension used to instantiate universally quantified theorems. -/
def sampleDim : Dim :=
  ⟨20, 5, 2⟩

/-- A concrete text style. -/
def sampleTextStyle : TextStyle :=
  ⟨["sans"], 10⟩

/-- A concrete execution state. -/
def sampleState : State :=
  ⟨Scope.mk, ⟨⟨⟨100, 100⟩, ⟨10, 10, 10, 10⟩⟩, sampleTextStyle⟩⟩

/-- A trivial stack machine instantiating the abstract `StackMachine` interface. -/
def nullMachine : StackMachine Unit :=
  ⟨fun _ _ => Unit.unit, fun s _ => s, fun _ => []⟩

/-- A trivial shape function with a trivial (unit) font loader. -/
def constShape : ShapeFn Unit :=
  fun _ _ _ loader => (Layout.new ⟨0, 0, 0⟩, loader)

/-- C1 counterexample: with `usable = (0,0,0,0)` (so width `0`, height `0`)
and `dim = (1e-4, 0, 0)`, the claim's non-strict fit test holds
(`usable.width + 1e-4 ≥ dim.width` and `usable.height + 1e-4 ≥
dim.height + dim.depth`), yet `place` returns `none`: the source tests
strictly (`>`), not `≥`. -/
theorem c1_counterexample :
    (Area.mk ⟨0, 0⟩ ⟨0, 0, 0, 0⟩ none).usable.width + EPS ≥ (Dim.mk EPS 0 0).width ∧
    (Area.mk ⟨0, 0⟩ ⟨0, 0, 0, 0⟩ none).usable.height + EPS
      ≥ (Dim.mk EPS 0 0).height + (Dim.mk EPS 0 0).depth ∧
    (Area.mk ⟨0, 0⟩ ⟨0, 0, 0, 0⟩ none).place (Dim.mk EPS 0 0) Side.top
      = Except.ok none := by
  refine ⟨by norm_num [Rect.width], by norm_num [Rect.height, EPS], ?_⟩
  unfold Area.place
  rw [if_neg (by simp), if_neg (by simp)]
  rw [if_neg]
  norm_num [Rect.width, Rect.height]

/-- C1 (amended): for every `Area` with `shape = none` and every `Dim`,
`place(dim, Side::Top)` returns a point exactly when `usable.width + 1e-4 >
dim.width` and `usable.height + 1e-4 > dim.height + dim.depth` (strict
inequalities), and on success the point is `(usable.x0, usable.y0 +
dim.height)`; otherwise it returns `none`. -/
theorem c1_place_top_fit (a : Area) (dim : Dim) (h : a.shape = none) :
    a.place dim Side.top =
      Except.ok
        (if a.usable.width + EPS > dim.width ∧
            a.usable.height + EPS > dim.height + dim.depth
          then some (Point.new a.usable.x0 (a.usable.y0 + dim.height))
          else none) :=
  Area.place_top_of_none a dim h

/-- C1 witness: the sample area (usable `80 × 80` starting at `(10, 10)`) fits
a `20 × (5+2)` box, placed at `(10, 15)`. -/
theorem c1_witness :
    sampleArea.shape = none ∧
    sampleArea.place sampleDim Side.top = Except.ok (some (Point.new 10 15)) := by
  refine ⟨rfl, ?_⟩
  rw [c1_place_top_fit sampleArea sampleDim rfl]
  norm_num [sampleArea, sampleDim, Rect.width, Rect.height, EPS, Point.new]

/-- C2: under `Overflow::Spill` with a non-empty supply, `next` always returns
`some`: every entry of any result stream is `some`; while more than one area
remains the front is removed and returned; a remaining singleton is returned
as a clone with the supply unchanged. -/
theorem c2_spill_never_none (a : Areas) (hov : a.overflow = Overflow.spill)
    (hne : a.vec ≠ []) :
    (∀ n : Nat, ∀ r ∈ (a.run n).1, r.isSome = true) ∧
    (∀ x y rest, a.vec = x :: y :: rest →
      a.next = (some x, Areas.mk (y :: rest) Overflow.spill)) ∧
    (∀ x, a.vec = [x] → a.next = (some x, a)) := by
  obtain ⟨v, ov⟩ := a
  cases hov
  refine ⟨fun n => Areas.spill_run_isSome n _ rfl hne, ?_, ?_⟩
  · intro x y rest hv
    cases hv
    simp [Areas.next]
  · intro x hv
    cases hv
    simp [Areas.next]

/-- C2 witness: a singleton `Spill` supply satisfies the hypotheses; three
draws all return `some` and one draw returns the area with the supply
unchanged. -/
theorem c2_witness :
    (Areas.new [sampleArea] Overflow.spill).overflow = Overflow.spill ∧
    (Areas.new [sampleArea] Overflow.spill).vec ≠ [] ∧
    (∀ r ∈ ((Areas.new [sampleArea] Overflow.spill).run 3).1, r.isSome = true) ∧
    (Areas.new [sampleArea] Overflow.spill).next
      = (some sampleArea, Areas.new [sampleArea] Overflow.spill) :=
  ⟨rfl, fun h => List.noConfusion h,
    fun r hr =>
      (c2_spill_never_none (Areas.new [sampleArea] Overflow.spill) rfl
        (fun h => List.noConfusion h)).1 3 r hr,
    (c2_spill_never_none (Areas.new [sampleArea] Overflow.spill) rfl
      (fun h => List.noConfusion h)).2.2 sampleArea rfl⟩

/-- C3: under `Overflow::Stop` with supply `v`, the first `v.length` of any
`n` calls to `next` return the areas of `v` in order (front consumed each
time) and every later call returns `none`; after `n` calls the supply holds
exactly the last `v.length - n` areas. -/
theorem c3_stop_drains (v : List Area) (n : Nat) :
    ((Areas.new v Overflow.stop).run n).1
      = (v.take n).map some ++ List.replicate (n - v.length) none ∧
    ((Areas.new v Overflow.stop).run n).2 = Areas.new (v.drop n) Overflow.stop := by
  induction n generalizing v with
  | zero => simp [Areas.run]
  | succ n ih =>
    cases v with
    | nil =>
      have h := ih []
      simp only [Areas.run, Areas.new, Areas.next] at h ⊢
      rw [h.1, h.2]
      simp [List.replicate_succ]
    | cons x rest =>
      have h := ih rest
      simp only [Areas.run, Areas.new, Areas.next] at h ⊢
      simp only [List.length_cons] at *
      rw [if_pos (Or.inr trivial)]
      simp only [List.take_succ_cons, List.map_cons, List.drop_succ_cons]
      rw [h.1, h.2]
      simp [Nat.succ_sub_succ]

/-- C5: `push_layout(p, B)` is exactly the fold pushing each `(p + delta, e)`
of `B` in order, and the result appends the translated elements of `B`, in
`B`'s order, after the existing elements. -/
theorem c5_push_layout_embedding (A : Layout) (p : Point) (B : Layout) :
    A.push_layout p B
      = B.elements.foldl (fun acc de => acc.push (p + de.1.to_vec2) de.2) A ∧
    (A.push_layout p B).elements
      = A.elements ++ B.elements.map (fun de => (p + de.1.to_vec2, de.2)) :=
  ⟨rfl, Layout.foldl_push_elements B.elements p A⟩

/-- C4 counterexample: for the tree `[Space, Parbreak, Unknown]` the driver
emits no item at all (in particular no `LayoutItem::Space` and no
`LayoutItem::Parbreak`) and the returned `Pass` carries no feedback entry for
the unknown node: the `_ => continue` arm skips every non-text node silently
and the driver ends with `Pass::ok`. -/
theorem c4_counterexample :
    (layoutItems constShape sampleTextStyle
        [SyntaxNode.space, SyntaxNode.parbreak, SyntaxNode.unknown] Unit.unit).1
      = ([] : List LayoutItem) ∧
    (layout nullMachine constShape
        [SyntaxNode.space, SyntaxNode.parbreak, SyntaxNode.unknown]
        Unit.unit sampleState).feedback = [] :=
  ⟨rfl, rfl⟩

/-- C4 (amended): the driver converts only text nodes; a space node, a
paragraph break or a node of unknown kind is skipped silently — it contributes
no layout item and the driver leaves the loader untouched for it — and the
returned `Pass` always has empty feedback. -/
theorem c4_driver_skips_non_text {Λ σ : Type} (M : StackMachine σ) (sf : ShapeFn Λ)
    (state : State) (loader : Λ) (node : SyntaxNode) (rest tree : List SyntaxNode)
    (h : ∀ t, node ≠ SyntaxNode.text t) :
    layoutItems sf state.style.text (node :: rest) loader
      = layoutItems sf state.style.text rest loader ∧
    (layout M sf tree loader state).feedback = [] := by
  refine ⟨?_, rfl⟩
  cases node with
  | text t => exact absurd rfl (h t)
  | space => rfl
  | parbreak => rfl
  | unknown => rfl

/-- C4 witness: a space node in front of an empty tree changes nothing and the
pass has empty feedback. -/
theorem c4_witness :
    layoutItems constShape sampleState.style.text [SyntaxNode.space] Unit.unit
      = layoutItems constShape sampleState.style.text [] Unit.unit ∧
    (layout nullMachine constShape [SyntaxNode.space] Unit.unit sampleState).feedback
      = [] :=
  c4_driver_skips_non_text nullMachine constShape sampleState Unit.unit
    SyntaxNode.space [] [SyntaxNode.space] (fun _ h => SyntaxNode.noConfusion h)

/-- C6: starting from a non-degenerate usable rectangle (`x0 ≤ x1`,
`y0 ≤ y1`), any `shrink_by` or `shrink_to`, for any amount and side, leaves
the rectangle non-degenerate: the moved edge is clamped at the opposite edge. -/
theorem c6_shrink_keeps_rect (a : Area) (hx : a.usable.x0 ≤ a.usable.x1)
    (hy : a.usable.y0 ≤ a.usable.y1) (amt : ℚ) (side : Side) :
    ((a.shrink_by amt side).usable.x0 ≤ (a.shrink_by amt side).usable.x1 ∧
      (a.shrink_by amt side).usable.y0 ≤ (a.shrink_by amt side).usable.y1) ∧
    ((a.shrink_to amt side).usable.x0 ≤ (a.shrink_to amt side).usable.x1 ∧
      (a.shrink_to amt side).usable.y0 ≤ (a.shrink_to amt side).usable.y1) := by
  cases side <;>
    exact ⟨⟨by simp [Area.shrink_by, hx, hy], by simp [Area.shrink_by, hx, hy]⟩,
      ⟨by simp [Area.shrink_to, hx, hy], by simp [Area.shrink_to, hx, hy]⟩⟩

/-- C6 witness: the sample area is non-degenerate and stays so after shrinking
from the top by `30` (by either method). -/
theorem c6_witness :
    sampleArea.usable.x0 ≤ sampleArea.usable.x1 ∧
    sampleArea.usable.y0 ≤ sampleArea.usable.y1 ∧
    ((sampleArea.shrink_by 30 Side.top).usable.x0
        ≤ (sampleArea.shrink_by 30 Side.top).usable.x1 ∧
      (sampleArea.shrink_by 30 Side.top).usable.y0
        ≤ (sampleArea.shrink_by 30 Side.top).usable.y1) ∧
    ((sampleArea.shrink_to 30 Side.top).usable.x0
        ≤ (sampleArea.shrink_to 30 Side.top).usable.x1 ∧
      (sampleArea.shrink_to 30 Side.top).usable.y0
        ≤ (sampleArea.shrink_to 30 Side.top).usable.y1) := by
  have hx : sampleArea.usable.x0 ≤ sampleArea.usable.x1 := by norm_num [sampleArea]
  have hy : sampleArea.usable.y0 ≤ sampleArea.usable.y1 := by norm_num [sampleArea]
  have h := c6_shrink_keeps_rect sampleArea hx hy 30 Side.top
  exact ⟨hx, hy, h.1, h.2⟩

/-- C7: calling `place` with a side other than `Top`, or on an area whose
shape is not `None`, hits an assertion (modelled as `Except.error`); under the
precondition `side = Top` and `shape = None` neither assertion fires and
`place` returns normally (`Except.ok`). -/
theorem c7_place_contract (a : Area) (dim : Dim) (side : Side) :
    ((side ≠ Side.top ∨ a.shape ≠ none) →
      ∃ msg, a.place dim side = Except.error msg) ∧
    (side = Side.top → a.shape = none → ∃ r, a.place dim side = Except.ok r) := by
  constructor
  · intro h
    by_cases hs : side = Side.top
    · cases hs
      rcases h with h | h
      · exact absurd rfl h
      · have hsome : a.shape.isSome = true := Option.ne_none_iff_isSome.mp h
        refine ⟨"assertion failed: shape is none", ?_⟩
        unfold Area.place
        rw [if_neg (by simp), if_pos hsome]
    · exact ⟨"assertion failed: side == Top", by unfold Area.place; rw [if_pos hs]⟩
  · intro hs hnone
    cases hs
    exact ⟨_, Area.place_top_of_none a dim hnone⟩

/-- C7 witness: placing against `Side::Left` errors; placing against
`Side::Top` on the shapeless sample area returns normally. -/
theorem c7_witness :
    (∃ msg, sampleArea.place sampleDim Side.left = Except.error msg) ∧
    (∃ r, sampleArea.place sampleDim Side.top = Except.ok r) :=
  ⟨(c7_place_contract sampleArea sampleDim Side.left).1
      (Or.inl (fun h => Side.noConfusion h)),
    (c7_place_contract sampleArea sampleDim Side.top).2 rfl rfl⟩

/-- C8: the driver builds exactly one initial area — page size, usable the
page rectangle inset by the page margins, no shape — wraps it in `Areas` with
`Overflow::Spill`, starts the stack layouter with direction `TTB`, and turns
each text node into `LayoutItem::Layout(Start, shape(text, text style, LTR))`,
threading the loader through the shape calls. -/
theorem c8_driver_setup {Λ σ : Type} (M : StackMachine σ) (sf : ShapeFn Λ)
    (state : State) (tree : List SyntaxNode) (loader : Λ) (t : String)
    (rest : List SyntaxNode) :
    layoutArea state
      = Area.mk state.style.page.size
          ((state.style.page.size.to_rect).inset state.style.page.margins) none ∧
    layout M sf tree loader state
      = Pass.ok (M.finish
          ((layoutItems sf state.style.text tree loader).1.foldl M.layoutItem
            (M.new (Areas.new [layoutArea state] Overflow.spill)
              (StackOptions.mk Dir.ttb)))) ∧
    (layoutItems sf state.style.text (SyntaxNode.text t :: rest) loader).1
      = LayoutItem.layout GenAlign.start (sf t state.style.text Dir.ltr loader).1
        :: (layoutItems sf state.style.text rest
            (sf t state.style.text Dir.ltr loader).2).1 :=
  ⟨rfl, rfl, rfl⟩

/-- C9: `push` and `push_layout` never change the dimension and only append to
the elements vector, leaving every previously stored element and their order
intact. -/
theorem c9_push_frame (l : Layout) (p : Point) (e : LayoutElement) (b : Layout) :
    (l.push p e).dim = l.dim ∧
    (l.push_layout p b).dim = l.dim ∧
    (∃ appended, (l.push p e).elements = l.elements ++ appended) ∧
    (∃ appended, (l.push_layout p b).elements = l.elements ++ appended) := by
  refine ⟨rfl, Layout.foldl_push_dim b.elements p l, ⟨[(p, e)], rfl⟩,
    ⟨b.elements.map (fun de => (p + de.1.to_vec2, de.2)), ?_⟩⟩
  exact Layout.foldl_push_elements b.elements p l

/-- C10: `place` takes `&self`, so a call leaves the receiver — its `size`,
`usable` and `shape` fields — unchanged, and two consecutive calls with equal
arguments return equal results. -/
theorem c10_place_pure (a : Area) (dim : Dim) :
    (a.placeCall dim Side.top).2.size = a.size ∧
    (a.placeCall dim Side.top).2.usable = a.usable ∧
    (a.placeCall dim Side.top).2.shape = a.shape ∧
    ((a.placeCall dim Side.top).2.placeCall dim Side.top).1
      = (a.placeCall dim Side.top).1 :=
  ⟨rfl, rfl, rfl, rfl⟩
